import Mathlib

/-!
Shallow embedding of `pkg/webhook/patch.go` from satchpx/bdpipeline
(spark-on-k8s-operator webhook patch derivation).

The file translates the patch-derivation core: given a pod document and a
SparkApplication descriptor, derive the list of RFC 6902 "add" patch
operations.  Go's `interface{}` patch values are embedded as the inductive
`PatchValue`; the runtime panic that the Go code hits when the container
scan falls through to an out-of-range index is embedded as `Option` with
`none` for the panic.  Payload types whose internals the core never
inspects (owner references, tolerations, affinity, security context) are
embedded as structures with a single opaque `payload` field.
-/

set_option autoImplicit false

namespace SparkWebhook

/-- Opaque owner-reference payload (`metav1.OwnerReference`); the core copies
it verbatim and never inspects its fields. -/
structure OwnerReference where
  payload : String
deriving DecidableEq, Repr

/-- `corev1.LocalObjectReference`-backed `corev1.ConfigMapVolumeSource`:
only the config-map name is set by this code. -/
structure ConfigMapVolumeSource where
  name : String
deriving DecidableEq, Repr

/-- `corev1.VolumeSource`: the code only ever constructs the `ConfigMap`
member; descriptor-declared volumes carry whatever source they came with,
which the core never reads. -/
structure VolumeSource where
  configMap : Option ConfigMapVolumeSource := none
deriving DecidableEq, Repr

/-- `corev1.Volume`. -/
structure Volume where
  name : String
  volumeSource : VolumeSource := {}
deriving DecidableEq, Repr

/-- `corev1.VolumeMount`. -/
structure VolumeMount where
  name : String
  readOnly : Bool := false
  mountPath : String := ""
deriving DecidableEq, Repr

/-- `corev1.EnvVar`. -/
structure EnvVar where
  name : String
  value : String
deriving DecidableEq, Repr

/-- Opaque `corev1.Toleration` payload. -/
structure Toleration where
  payload : String
deriving DecidableEq, Repr

/-- Opaque `corev1.Affinity` payload. -/
structure Affinity where
  payload : String
deriving DecidableEq, Repr

/-- Opaque `corev1.PodSecurityContext` payload. -/
structure PodSecurityContext where
  payload : String
deriving DecidableEq, Repr

/-- `corev1.Container`: the fields this code reads (name, env list,
volume-mount list). -/
structure Container where
  name : String
  env : List EnvVar := []
  volumeMounts : List VolumeMount := []
deriving DecidableEq, Repr

/-- Modelled from the spec: the Role classification ("an enumeration
{Driver, Executor}, derived from pod identity (name/labels) by the excluded
classifier").  The classifier (`util.IsDriverPod` / `util.IsExecutorPod`)
is not under `src/`; a pod matching neither well-known identity is
classified `other`. -/
inductive SparkRole where
  | driver
  | executor
  | other
deriving DecidableEq, Repr

/-- `corev1.PodSpec`: the fields this code reads. -/
structure PodSpec where
  volumes : List Volume := []
  containers : List Container := []
  affinity : Option Affinity := none
  securityContext : Option PodSecurityContext := none
  tolerations : List Toleration := []
deriving DecidableEq, Repr

/-- `corev1.Pod`: owner references (from `ObjectMeta`), the spec, and the
spec-modelled role classification (see `SparkRole`). -/
structure Pod where
  ownerReferences : List OwnerReference := []
  spec : PodSpec := {}
  sparkRole : SparkRole := SparkRole.other
deriving DecidableEq, Repr

/-- `v1beta1.NamePath`: a (config-map name, mount path) pair. -/
structure NamePath where
  name : String
  path : String
deriving DecidableEq, Repr

/-- `v1beta1.SparkPodSpec`: the per-role descriptor fields this code reads.
The misspelt field `securityContenxt` is kept from the source. -/
structure SparkPodSpec where
  volumeMounts : List VolumeMount := []
  configMaps : List NamePath := []
  tolerations : List Toleration := []
  affinity : Option Affinity := none
  securityContenxt : Option PodSecurityContext := none
deriving DecidableEq, Repr

/-- `v1beta1.SparkApplicationSpec`: the descriptor fields this code reads. -/
structure SparkApplicationSpec where
  volumes : List Volume := []
  driver : SparkPodSpec := {}
  executor : SparkPodSpec := {}
  sparkConfigMap : Option String := none
  hadoopConfigMap : Option String := none
deriving DecidableEq, Repr

/-- `v1beta1.SparkApplication`.  The `ownerRef` field is modelled from the
spec: `util.GetOwnerReference(app)` (not under `src/`) synthesizes the
owner-reference entry establishing the application as owner of the pod;
the core treats it as an opaque value determined by the application. -/
structure SparkApplication where
  spec : SparkApplicationSpec := {}
  ownerRef : OwnerReference := { payload := "" }
deriving DecidableEq, Repr

/-- Modelled from the spec: role classifier `util.IsDriverPod` (not under
`src/`): whether the pod is classified as the driver. -/
def IsDriverPod (pod : Pod) : Bool :=
  pod.sparkRole == SparkRole.driver

/-- Modelled from the spec: role classifier `util.IsExecutorPod` (not under
`src/`): whether the pod is classified as an executor. -/
def IsExecutorPod (pod : Pod) : Bool :=
  pod.sparkRole == SparkRole.executor

/-- Modelled from the spec: `util.GetOwnerReference(app)` (not under
`src/`), the owner-reference payload for the application. -/
def GetOwnerReference (app : SparkApplication) : OwnerReference :=
  app.ownerRef

def sparkDriverContainerName : String := "spark-kubernetes-driver"

def sparkExecutorContainerName : String := "executor"

def maxNameLength : Nat := 63

/-- Modelled from the spec: `config.SparkConfigMapVolumeName` (the `config`
package is not under `src/`); a fixed well-known constant. -/
def SparkConfigMapVolumeName : String := "spark-configmap-volume"

/-- Modelled from the spec: `config.DefaultSparkConfDir`, the fixed default
directory for the application-config specialization. -/
def DefaultSparkConfDir : String := "/etc/spark/conf"

/-- Modelled from the spec: `config.SparkConfDirEnvVar`, the environment
variable naming the application-config directory. -/
def SparkConfDirEnvVar : String := "SPARK_CONF_DIR"

/-- Modelled from the spec: `config.HadoopConfigMapVolumeName`. -/
def HadoopConfigMapVolumeName : String := "hadoop-configmap-volume"

/-- Modelled from the spec: `config.DefaultHadoopConfDir`. -/
def DefaultHadoopConfDir : String := "/etc/hadoop/conf"

/-- Modelled from the spec: `config.HadoopConfDirEnvVar`. -/
def HadoopConfDirEnvVar : String := "HADOOP_CONF_DIR"

/-- The `interface{}` patch value: each array-valued field can carry either
a one-element-array value (create shape) or a bare element (append shape);
affinity and security context are always bare. -/
inductive PatchValue where
  | ownerRefList (l : List OwnerReference)
  | ownerRefElem (o : OwnerReference)
  | volumeList (l : List Volume)
  | volumeElem (v : Volume)
  | volumeMountList (l : List VolumeMount)
  | volumeMountElem (m : VolumeMount)
  | envVarList (l : List EnvVar)
  | envVarElem (e : EnvVar)
  | tolerationList (l : List Toleration)
  | tolerationElem (t : Toleration)
  | affinityElem (a : Affinity)
  | securityContextElem (s : PodSecurityContext)
deriving DecidableEq, Repr

/-- The field family a patch value belongs to. -/
inductive PatchKind where
  | owner
  | volume
  | mount
  | env
  | toleration
  | affinity
  | security
deriving DecidableEq, Repr

def PatchValue.kind : PatchValue → PatchKind
  | .ownerRefList _ => .owner
  | .ownerRefElem _ => .owner
  | .volumeList _ => .volume
  | .volumeElem _ => .volume
  | .volumeMountList _ => .mount
  | .volumeMountElem _ => .mount
  | .envVarList _ => .env
  | .envVarElem _ => .env
  | .tolerationList _ => .toleration
  | .tolerationElem _ => .toleration
  | .affinityElem _ => .affinity
  | .securityContextElem _ => .security

/-- `patchOperation`: an RFC 6902 JSON patch operation. -/
structure patchOperation where
  op : String
  path : String
  value : PatchValue
deriving DecidableEq, Repr

/-- `addOwnerReference`. -/
def addOwnerReference (pod : Pod) (app : SparkApplication) : patchOperation :=
  let ownerReference := GetOwnerReference app
  if pod.ownerReferences.length == 0 then
    { op := "add", path := "/metadata/ownerReferences",
      value := .ownerRefList [ownerReference] }
  else
    { op := "add", path := "/metadata/ownerReferences" ++ "/-",
      value := .ownerRefElem ownerReference }

/-- `addVolume`. -/
def addVolume (pod : Pod) (volume : Volume) : patchOperation :=
  if pod.spec.volumes.length == 0 then
    { op := "add", path := "/spec/volumes", value := .volumeList [volume] }
  else
    { op := "add", path := "/spec/volumes" ++ "/-", value := .volumeElem volume }

/-- Whether a container carries one of the two well-known names (the loop
condition of the container scan in `addVolumeMount` / `addEnvironmentVariable`). -/
def isSparkContainer (c : Container) : Bool :=
  c.name == sparkDriverContainerName || c.name == sparkExecutorContainerName

/-- The container scan: index of the first container named like the driver
or executor container, or the length of the list when none matches (Go's
loop falls through with `i == len(containers)`). -/
def findContainerIndex : List Container → Nat
  | [] => 0
  | c :: rest => if isSparkContainer c then 0 else findContainerIndex rest + 1

/-- The `fmt.Sprintf("/spec/containers/%d/volumeMounts", i)` path. -/
def containerMountsPath (i : Nat) : String :=
  "/spec/containers/" ++ toString i ++ "/volumeMounts"

/-- The `fmt.Sprintf("/spec/containers/%d/env", i)` path. -/
def containerEnvPath (i : Nat) : String :=
  "/spec/containers/" ++ toString i ++ "/env"

/-- The operation body of `addVolumeMount` once container `c` at index `i`
has been resolved. -/
def volumeMountOpAt (i : Nat) (c : Container) (mount : VolumeMount) : patchOperation :=
  if c.volumeMounts.length == 0 then
    { op := "add", path := containerMountsPath i, value := .volumeMountList [mount] }
  else
    { op := "add", path := containerMountsPath i ++ "/-",
      value := .volumeMountElem mount }

/-- `addVolumeMount`: scans for the driver/executor container and indexes
`pod.Spec.Containers[i]` unconditionally; when no container matches, the Go
code indexes out of range (a runtime panic), embedded as `none`. -/
def addVolumeMount (pod : Pod) (mount : VolumeMount) : Option patchOperation :=
  let i := findContainerIndex pod.spec.containers
  (pod.spec.containers.get? i).map (fun c => volumeMountOpAt i c mount)

/-- The operation body of `addEnvironmentVariable` once container `c` at
index `i` has been resolved. -/
def envVarOpAt (i : Nat) (c : Container) (envName envValue : String) : patchOperation :=
  if c.env.length == 0 then
    { op := "add", path := containerEnvPath i,
      value := .envVarList [{ name := envName, value := envValue }] }
  else
    { op := "add", path := containerEnvPath i ++ "/-",
      value := .envVarElem { name := envName, value := envValue } }

/-- `addEnvironmentVariable`: same unguarded container indexing as
`addVolumeMount`; the out-of-range access is embedded as `none`. -/
def addEnvironmentVariable (pod : Pod) (envName envValue : String) : Option patchOperation :=
  let i := findContainerIndex pod.spec.containers
  (pod.spec.containers.get? i).map (fun c => envVarOpAt i c envName envValue)

/-- The `volumeMap` built by `addVolumes`: Go map insertion overwrites, so
lookup returns the last declared volume with the given name. -/
def lookupVolume (volumes : List Volume) (n : String) : Option Volume :=
  volumes.foldl (fun acc v => if v.name == n then some v else acc) none

/-- The role-selected volume-mount list of `addVolumes`. -/
def roleVolumeMounts (pod : Pod) (app : SparkApplication) : List VolumeMount :=
  if IsDriverPod pod then app.spec.driver.volumeMounts
  else if IsExecutorPod pod then app.spec.executor.volumeMounts
  else []

/-- The loop of `addVolumes`: for each mount with a matching declared
volume, the volume op then the mount op; unmatched mounts are skipped. -/
def addVolumesAux (pod : Pod) (volumes : List Volume) :
    List VolumeMount → Option (List patchOperation)
  | [] => some []
  | m :: rest =>
    match lookupVolume volumes m.name with
    | none => addVolumesAux pod volumes rest
    | some v =>
      (addVolumeMount pod m).bind (fun mountOp =>
        (addVolumesAux pod volumes rest).map (fun restOps =>
          addVolume pod v :: mountOp :: restOps))

/-- `addVolumes`. -/
def addVolumes (pod : Pod) (app : SparkApplication) : Option (List patchOperation) :=
  addVolumesAux pod app.spec.volumes (roleVolumeMounts pod app)

/-- `addConfigMapVolume`. -/
def addConfigMapVolume (pod : Pod) (configMapName configMapVolumeName : String) :
    patchOperation :=
  let volume : Volume :=
    { name := configMapVolumeName,
      volumeSource := { configMap := some { name := configMapName } } }
  addVolume pod volume

/-- `addConfigMapVolumeMount`. -/
def addConfigMapVolumeMount (pod : Pod) (configMapVolumeName mountPath : String) :
    Option patchOperation :=
  addVolumeMount pod
    { name := configMapVolumeName, readOnly := true, mountPath := mountPath }

/-- `addSparkConfigMap`. -/
def addSparkConfigMap (pod : Pod) (app : SparkApplication) :
    Option (List patchOperation) :=
  match app.spec.sparkConfigMap with
  | none => some []
  | some sparkConfigMapName =>
    (addConfigMapVolumeMount pod SparkConfigMapVolumeName DefaultSparkConfDir).bind
      (fun mountOp =>
        (addEnvironmentVariable pod SparkConfDirEnvVar DefaultSparkConfDir).map
          (fun envOp =>
            [addConfigMapVolume pod sparkConfigMapName SparkConfigMapVolumeName,
             mountOp, envOp]))

/-- `addHadoopConfigMap`. -/
def addHadoopConfigMap (pod : Pod) (app : SparkApplication) :
    Option (List patchOperation) :=
  match app.spec.hadoopConfigMap with
  | none => some []
  | some hadoopConfigMapName =>
    (addConfigMapVolumeMount pod HadoopConfigMapVolumeName DefaultHadoopConfDir).bind
      (fun mountOp =>
        (addEnvironmentVariable pod HadoopConfDirEnvVar DefaultHadoopConfDir).map
          (fun envOp =>
            [addConfigMapVolume pod hadoopConfigMapName HadoopConfigMapVolumeName,
             mountOp, envOp]))

/-- The derived volume name of a general config reference:
`name + "-vol"`, cut to the first `maxNameLength` characters when longer. -/
def generalConfigVolumeName (name : String) : String :=
  let volumeName := name ++ "-vol"
  if volumeName.length > maxNameLength then volumeName.take maxNameLength
  else volumeName

/-- The role-selected config-map list of `addGeneralConfigMaps`. -/
def roleConfigMaps (pod : Pod) (app : SparkApplication) : List NamePath :=
  if IsDriverPod pod then app.spec.driver.configMaps
  else if IsExecutorPod pod then app.spec.executor.configMaps
  else []

/-- The loop of `addGeneralConfigMaps`: a volume op then a mount op per
(name, path) entry, with the derived (possibly truncated) volume name. -/
def addGeneralConfigMapsAux (pod : Pod) :
    List NamePath → Option (List patchOperation)
  | [] => some []
  | np :: rest =>
    let volumeName := generalConfigVolumeName np.name
    (addConfigMapVolumeMount pod volumeName np.path).bind (fun mountOp =>
      (addGeneralConfigMapsAux pod rest).map (fun restOps =>
        addConfigMapVolume pod np.name volumeName :: mountOp :: restOps))

/-- `addGeneralConfigMaps`. -/
def addGeneralConfigMaps (pod : Pod) (app : SparkApplication) :
    Option (List patchOperation) :=
  addGeneralConfigMapsAux pod (roleConfigMaps pod app)

/-- The role-selected affinity of `addAffinity`, or `nil`. -/
def roleAffinity (pod : Pod) (app : SparkApplication) : Option Affinity :=
  if IsDriverPod pod then app.spec.driver.affinity
  else if IsExecutorPod pod then app.spec.executor.affinity
  else none

/-- `addAffinity`: `nil` when the role declares no affinity. -/
def addAffinity (pod : Pod) (app : SparkApplication) : Option patchOperation :=
  (roleAffinity pod app).map
    (fun a => { op := "add", path := "/spec/affinity", value := .affinityElem a })

/-- The role-selected toleration list of `addTolerations`. -/
def roleTolerations (pod : Pod) (app : SparkApplication) : List Toleration :=
  if IsDriverPod pod then app.spec.driver.tolerations
  else if IsExecutorPod pod then app.spec.executor.tolerations
  else []

/-- `addToleration`. -/
def addToleration (pod : Pod) (toleration : Toleration) : patchOperation :=
  if pod.spec.tolerations.length == 0 then
    { op := "add", path := "/spec/tolerations", value := .tolerationList [toleration] }
  else
    { op := "add", path := "/spec/tolerations" ++ "/-",
      value := .tolerationElem toleration }

/-- `addTolerations`: one `addToleration` per role-declared toleration,
each consulting the (unchanged) pod. -/
def addTolerations (pod : Pod) (app : SparkApplication) : List patchOperation :=
  (roleTolerations pod app).map (addToleration pod)

/-- The role-selected security context of `addSecurityContext`, or `nil`
(reading the misspelt `securityContenxt` descriptor field). -/
def roleSecurityContext (pod : Pod) (app : SparkApplication) : Option PodSecurityContext :=
  if IsDriverPod pod then app.spec.driver.securityContenxt
  else if IsExecutorPod pod then app.spec.executor.securityContenxt
  else none

/-- `addSecurityContext`: `nil` when the role declares no security context. -/
def addSecurityContext (pod : Pod) (app : SparkApplication) : Option patchOperation :=
  (roleSecurityContext pod app).map
    (fun s => { op := "add", path := "/spec/securityContext",
                value := .securityContextElem s })

/-- `patchSparkPod`: the assembler.  Panics of sub-patchers (out-of-range
container indexing) abort the whole derivation, embedded as `none`. -/
def patchSparkPod (pod : Pod) (app : SparkApplication) :
    Option (List patchOperation) :=
  let ownerOps := if IsDriverPod pod then [addOwnerReference pod app] else []
  (addVolumes pod app).bind (fun volOps =>
    (addGeneralConfigMaps pod app).bind (fun genOps =>
      (addSparkConfigMap pod app).bind (fun sparkOps =>
        (addHadoopConfigMap pod app).map (fun hadoopOps =>
          ownerOps ++ volOps ++ genOps ++ sparkOps ++ hadoopOps
            ++ addTolerations pod app
            ++ (if pod.spec.affinity.isNone then (addAffinity pod app).toList else [])
            ++ (if pod.spec.securityContext.isNone then
                 (addSecurityContext pod app).toList
               else [])))))

/-- State-passing form of `patchSparkPod`: the Go function receives the pod
by pointer and contains no assignment through that pointer (every helper
only reads it), so the state-threaded translation returns the pod
unchanged alongside the derived operations. -/
def patchSparkPodSt (pod : Pod) (app : SparkApplication) :
    Option (List patchOperation) × Pod :=
  (patchSparkPod pod app, pod)

end SparkWebhook

namespace SparkWebhook

/-- Claim C1: for every pod and every single-element add emitted for an
array-valued field (pod volumes, owner references, a container's volume
mounts, a container's env vars, pod tolerations): length 0 gives the bare
array path with a one-element-array value; length >= 1 gives the bare path
with the slash-dash append marker appended and the bare element as value. -/
theorem claim_C1_append_vs_create (pod : Pod) (app : SparkApplication)
    (v : Volume) (m : VolumeMount) (en ev : String) (t : Toleration) (c : Container)
    (hc : pod.spec.containers[findContainerIndex pod.spec.containers]? = some c) :
    addOwnerReference pod app =
      (if pod.ownerReferences.length = 0 then
        { op := "add", path := "/metadata/ownerReferences",
          value := .ownerRefList [GetOwnerReference app] }
      else
        { op := "add", path := "/metadata/ownerReferences" ++ "/-",
          value := .ownerRefElem (GetOwnerReference app) })
    ∧ addVolume pod v =
      (if pod.spec.volumes.length = 0 then
        { op := "add", path := "/spec/volumes", value := .volumeList [v] }
      else
        { op := "add", path := "/spec/volumes" ++ "/-", value := .volumeElem v })
    ∧ addVolumeMount pod m =
      some (if c.volumeMounts.length = 0 then
        { op := "add", path := containerMountsPath (findContainerIndex pod.spec.containers),
          value := .volumeMountList [m] }
      else
        { op := "add",
          path := containerMountsPath (findContainerIndex pod.spec.containers) ++ "/-",
          value := .volumeMountElem m })
    ∧ addEnvironmentVariable pod en ev =
      some (if c.env.length = 0 then
        { op := "add", path := containerEnvPath (findContainerIndex pod.spec.containers),
          value := .envVarList [{ name := en, value := ev }] }
      else
        { op := "add",
          path := containerEnvPath (findContainerIndex pod.spec.containers) ++ "/-",
          value := .envVarElem { name := en, value := ev } })
    ∧ addToleration pod t =
      (if pod.spec.tolerations.length = 0 then
        { op := "add", path := "/spec/tolerations", value := .tolerationList [t] }
      else
        { op := "add", path := "/spec/tolerations" ++ "/-",
          value := .tolerationElem t }) := by
  refine ⟨?_, ?_, ?_, ?_, ?_⟩
  · simp [addOwnerReference]
  · simp [addVolume]
  · simp [addVolumeMount, hc, volumeMountOpAt]
  · simp [addEnvironmentVariable, hc, envVarOpAt]
  · simp [addToleration]

/-- A pod carrying only the well-known driver container, classified as the
driver; used as a concrete evaluation input. -/
def wContainer : Container := { name := "spark-kubernetes-driver" }

def wPod : Pod :=
  { spec := { containers := [wContainer] }, sparkRole := SparkRole.driver }

def wApp : SparkApplication := {}

theorem claim_C1_append_vs_create_witness :
    wPod.spec.containers[findContainerIndex wPod.spec.containers]? = some wContainer
    ∧ addOwnerReference wPod wApp =
      { op := "add", path := "/metadata/ownerReferences",
        value := .ownerRefList [GetOwnerReference wApp] }
    ∧ addVolume wPod { name := "v" } =
      { op := "add", path := "/spec/volumes", value := .volumeList [{ name := "v" }] }
    ∧ addVolumeMount wPod { name := "v" } =
      some { op := "add", path := "/spec/containers/0/volumeMounts",
             value := .volumeMountList [{ name := "v" }] }
    ∧ addEnvironmentVariable wPod "E" "1" =
      some { op := "add", path := "/spec/containers/0/env",
             value := .envVarList [{ name := "E", value := "1" }] }
    ∧ addToleration wPod { payload := "t" } =
      { op := "add", path := "/spec/tolerations",
        value := .tolerationList [{ payload := "t" }] } := by
  have h := claim_C1_append_vs_create wPod wApp { name := "v" } { name := "v" }
    "E" "1" { payload := "t" } wContainer rfl
  exact ⟨rfl, by simpa [wPod, wContainer, containerMountsPath, containerEnvPath] using h⟩

end SparkWebhook

namespace SparkWebhook

/-- A driver pod with an initially empty toleration array. -/
def tPod : Pod := { sparkRole := SparkRole.driver }

/-- A descriptor declaring two tolerations for the driver role. -/
def tApp : SparkApplication :=
  { spec := { driver := { tolerations := [{ payload := "t1" }, { payload := "t2" }] } } }

/-- Claim C7 counterexample: against a pod whose toleration array is empty
and a role declaring two tolerations, the second emitted operation is not
an append (append-suffixed path with a bare element): every entry,
including the second, repeats the create shape (bare path, one-element
array value), because each call consults the unchanged pod. -/
theorem claim_C7_counterexample :
    tPod.spec.tolerations = []
    ∧ addTolerations tPod tApp =
      [{ op := "add", path := "/spec/tolerations",
         value := .tolerationList [{ payload := "t1" }] },
       { op := "add", path := "/spec/tolerations",
         value := .tolerationList [{ payload := "t2" }] }]
    ∧ ({ op := "add", path := "/spec/tolerations",
         value := PatchValue.tolerationList [{ payload := "t2" }] } : patchOperation) ≠
      { op := "add", path := "/spec/tolerations" ++ "/-",
        value := PatchValue.tolerationElem { payload := "t2" } } := by
  refine ⟨rfl, rfl, by decide⟩

/-- Claim C7 as amended: the append-vs-create decision is made once per
patcher call from the pod's original toleration count; when the pod's
toleration array is initially empty, every declared toleration — entries
after the first included — is emitted with the create shape (bare
`/spec/tolerations` path, one-element array value), not as an append. -/
theorem claim_C7_amended (pod : Pod) (app : SparkApplication)
    (h : pod.spec.tolerations = []) :
    addTolerations pod app =
      (roleTolerations pod app).map
        (fun t => { op := "add", path := "/spec/tolerations",
                    value := .tolerationList [t] }) := by
  simp [addTolerations, addToleration, h]

theorem claim_C7_amended_witness :
    tPod.spec.tolerations = []
    ∧ addTolerations tPod tApp =
      (roleTolerations tPod tApp).map
        (fun t => { op := "add", path := "/spec/tolerations",
                    value := .tolerationList [t] }) :=
  ⟨rfl, claim_C7_amended tPod tApp rfl⟩

/-- A driver pod whose single container matches neither well-known
container name. -/
def ncPod : Pod :=
  { spec := { containers := [{ name := "main" }] }, sparkRole := SparkRole.driver }

/-- A descriptor whose driver declares a mount matched by a declared
volume, so patch derivation must touch the container. -/
def ncApp : SparkApplication :=
  { spec := { volumes := [{ name := "v1" }],
              driver := { volumeMounts := [{ name := "v1", mountPath := "/mnt" }] } } }

/-- Claim C2 (code bug): at a pod with no container named like the driver
or executor container, the container scan falls through to index 1 =
len(containers), and the Go code indexes `pod.Spec.Containers[1]` out of
range — a runtime panic, embedded here as `none` — instead of failing with
an explicit ContainerNotFound error as the spec requires. -/
theorem claim_C2_container_scan_out_of_range :
    patchSparkPod ncPod ncApp = none
    ∧ findContainerIndex ncPod.spec.containers = ncPod.spec.containers.length := by
  refine ⟨rfl, by decide⟩

/-- A descriptor declaring, for both roles, volumes/mounts, general config
references, tolerations, affinity and security context. -/
def oApp : SparkApplication :=
  { spec :=
    { volumes := [{ name := "v" }],
      driver :=
        { volumeMounts := [{ name := "v" }],
          configMaps := [{ name := "c", path := "/c" }],
          tolerations := [{ payload := "t" }],
          affinity := some { payload := "a" },
          securityContenxt := some { payload := "s" } },
      executor :=
        { volumeMounts := [{ name := "v" }],
          configMaps := [{ name := "c", path := "/c" }],
          tolerations := [{ payload := "t" }],
          affinity := some { payload := "a" },
          securityContenxt := some { payload := "s" } } } }

/-- Claim C10: a pod classified as neither driver nor executor gets nothing
from the role-selected patchers, whatever the descriptor declares. -/
theorem claim_C10_neither_role (pod : Pod) (app : SparkApplication)
    (h : pod.sparkRole = SparkRole.other) :
    addVolumes pod app = some []
    ∧ addGeneralConfigMaps pod app = some []
    ∧ addTolerations pod app = []
    ∧ addAffinity pod app = none
    ∧ addSecurityContext pod app = none := by
  have hd : IsDriverPod pod = false := by simp [IsDriverPod, h]
  have he : IsExecutorPod pod = false := by simp [IsExecutorPod, h]
  refine ⟨?_, ?_, ?_, ?_, ?_⟩ <;>
    simp [addVolumes, roleVolumeMounts, addVolumesAux, addGeneralConfigMaps,
      roleConfigMaps, addGeneralConfigMapsAux, addTolerations, roleTolerations,
      addAffinity, roleAffinity, addSecurityContext, roleSecurityContext, hd, he]

theorem claim_C10_neither_role_witness :
    ({} : Pod).sparkRole = SparkRole.other
    ∧ (addVolumes {} oApp = some []
      ∧ addGeneralConfigMaps {} oApp = some []
      ∧ addTolerations {} oApp = []
      ∧ addAffinity {} oApp = none
      ∧ addSecurityContext {} oApp = none) :=
  ⟨rfl, claim_C10_neither_role {} oApp rfl⟩

end SparkWebhook

namespace SparkWebhook

/-- Unfolding lemma for the `addVolumes` loop when the container scan
succeeds: the result is the concatenation, in mount-declaration order, of
the volume-op/mount-op pair of each mount whose name matches a declared
volume, matchless mounts contributing nothing. -/
theorem addVolumesAux_eq_bind (pod : Pod) (vols : List Volume) (c : Container)
    (hc : pod.spec.containers[findContainerIndex pod.spec.containers]? = some c)
    (ms : List VolumeMount) :
    addVolumesAux pod vols ms =
      some (ms.flatMap (fun m =>
        match lookupVolume vols m.name with
        | none => []
        | some v => [addVolume pod v,
            volumeMountOpAt (findContainerIndex pod.spec.containers) c m])) := by
  induction ms with
  | nil => simp [addVolumesAux]
  | cons m rest ih =>
    have hm : addVolumeMount pod m =
        some (volumeMountOpAt (findContainerIndex pod.spec.containers) c m) := by
      simp [addVolumeMount, hc]
    cases hl : lookupVolume vols m.name with
    | none => simp [addVolumesAux, hl, ih]
    | some v => simp [addVolumesAux, hl, hm, ih]

/-- Claim C5: mount points of the pod's role with no matching declared
volume are silently dropped; each matching mount contributes exactly the
add-volume operation immediately followed by the add-mount operation, and
the pairs appear in the declaration order of the role's mount list. -/
theorem claim_C5_filter_join (pod : Pod) (app : SparkApplication) (c : Container)
    (hc : pod.spec.containers[findContainerIndex pod.spec.containers]? = some c) :
    addVolumes pod app =
      some ((roleVolumeMounts pod app).flatMap (fun m =>
        match lookupVolume app.spec.volumes m.name with
        | none => []
        | some v => [addVolume pod v,
            volumeMountOpAt (findContainerIndex pod.spec.containers) c m])) := by
  exact addVolumesAux_eq_bind pod app.spec.volumes c hc (roleVolumeMounts pod app)

/-- A driver descriptor with one matched mount ("data") and one mount with
no declared volume ("ghost"). -/
def mApp : SparkApplication :=
  { spec := { volumes := [{ name := "data" }],
              driver := { volumeMounts :=
                [{ name := "data", mountPath := "/d" },
                 { name := "ghost", mountPath := "/g" }] } } }

theorem claim_C5_filter_join_witness :
    wPod.spec.containers[findContainerIndex wPod.spec.containers]? = some wContainer
    ∧ addVolumes wPod mApp =
      some ((roleVolumeMounts wPod mApp).flatMap (fun m =>
        match lookupVolume mApp.spec.volumes m.name with
        | none => []
        | some v => [addVolume wPod v,
            volumeMountOpAt (findContainerIndex wPod.spec.containers) wContainer m]))
    ∧ addVolumes wPod mApp =
      some [{ op := "add", path := "/spec/volumes",
              value := .volumeList [{ name := "data" }] },
            { op := "add", path := "/spec/containers/0/volumeMounts",
              value := .volumeMountList [{ name := "data", mountPath := "/d" }] }] :=
  ⟨rfl, claim_C5_filter_join wPod mApp wContainer rfl, rfl⟩

/-- Claim C6: the derived general-config volume name is `name + "-vol"`,
cut to its first 63 characters exactly when the reference name's length L
has L + 4 > 63; and that one derived name is the name carried by both the
emitted volume operation and the emitted mount operation. -/
theorem claim_C6_volume_name_truncation (pod : Pod) (np : NamePath) (c : Container)
    (name : String)
    (hc : pod.spec.containers[findContainerIndex pod.spec.containers]? = some c) :
    generalConfigVolumeName name =
      (if name.length + 4 > 63 then (name ++ "-vol").take 63 else name ++ "-vol")
    ∧ addGeneralConfigMapsAux pod [np] =
      some [addVolume pod
              { name := generalConfigVolumeName np.name,
                volumeSource := { configMap := some { name := np.name } } },
            volumeMountOpAt (findContainerIndex pod.spec.containers) c
              { name := generalConfigVolumeName np.name, readOnly := true,
                mountPath := np.path }] := by
  constructor
  · have h4 : ("-vol" : String).length = 4 := rfl
    simp [generalConfigVolumeName, maxNameLength, String.length_append, h4]
  · simp [addGeneralConfigMapsAux, addConfigMapVolumeMount, addVolumeMount,
      addConfigMapVolume, hc]

/-- A 70-character general config reference name. -/
def longName : String :=
  "a234567890a234567890a234567890a234567890a234567890a234567890a234567890"

set_option maxRecDepth 10000 in
theorem claim_C6_volume_name_truncation_witness :
    wPod.spec.containers[findContainerIndex wPod.spec.containers]? = some wContainer
    ∧ (generalConfigVolumeName longName =
        (if longName.length + 4 > 63 then (longName ++ "-vol").take 63
         else longName ++ "-vol")
      ∧ addGeneralConfigMapsAux wPod [{ name := longName, path := "/c" }] =
        some [addVolume wPod
                { name := generalConfigVolumeName longName,
                  volumeSource := { configMap := some { name := longName } } },
              volumeMountOpAt (findContainerIndex wPod.spec.containers) wContainer
                { name := generalConfigVolumeName longName, readOnly := true,
                  mountPath := "/c" }])
    ∧ generalConfigVolumeName longName =
        "a234567890a234567890a234567890a234567890a234567890a234567890a23"
    ∧ (generalConfigVolumeName longName).length = 63 :=
  ⟨rfl, claim_C6_volume_name_truncation wPod { name := longName, path := "/c" }
      wContainer longName rfl, rfl, rfl⟩

end SparkWebhook

namespace SparkWebhook

theorem kind_addOwnerReference (pod : Pod) (app : SparkApplication) :
    (addOwnerReference pod app).value.kind = PatchKind.owner := by
  unfold addOwnerReference; split <;> rfl

theorem kind_addVolume (pod : Pod) (v : Volume) :
    (addVolume pod v).value.kind = PatchKind.volume := by
  unfold addVolume; split <;> rfl

theorem kind_volumeMountOpAt (i : Nat) (c : Container) (m : VolumeMount) :
    (volumeMountOpAt i c m).value.kind = PatchKind.mount := by
  unfold volumeMountOpAt; split <;> rfl

theorem kind_envVarOpAt (i : Nat) (c : Container) (en ev : String) :
    (envVarOpAt i c en ev).value.kind = PatchKind.env := by
  unfold envVarOpAt; split <;> rfl

theorem kind_addToleration (pod : Pod) (t : Toleration) :
    (addToleration pod t).value.kind = PatchKind.toleration := by
  unfold addToleration; split <;> rfl

theorem kind_addVolumeMount (pod : Pod) (m : VolumeMount) (o : patchOperation)
    (h : addVolumeMount pod m = some o) : o.value.kind = PatchKind.mount := by
  simp only [addVolumeMount, Option.map_eq_some'] at h
  obtain ⟨c, _, rfl⟩ := h
  exact kind_volumeMountOpAt _ c m

theorem kind_addEnvironmentVariable (pod : Pod) (en ev : String) (o : patchOperation)
    (h : addEnvironmentVariable pod en ev = some o) : o.value.kind = PatchKind.env := by
  simp only [addEnvironmentVariable, Option.map_eq_some'] at h
  obtain ⟨c, _, rfl⟩ := h
  exact kind_envVarOpAt _ c en ev

theorem kind_addConfigMapVolume (pod : Pod) (a b : String) :
    (addConfigMapVolume pod a b).value.kind = PatchKind.volume := by
  unfold addConfigMapVolume; exact kind_addVolume pod _

theorem kind_addConfigMapVolumeMount (pod : Pod) (a b : String) (o : patchOperation)
    (h : addConfigMapVolumeMount pod a b = some o) : o.value.kind = PatchKind.mount := by
  unfold addConfigMapVolumeMount at h
  exact kind_addVolumeMount pod _ o h

theorem kind_addAffinity (pod : Pod) (app : SparkApplication) (o : patchOperation)
    (h : addAffinity pod app = some o) : o.value.kind = PatchKind.affinity := by
  simp only [addAffinity, Option.map_eq_some'] at h
  obtain ⟨a, _, rfl⟩ := h
  rfl

theorem kind_addSecurityContext (pod : Pod) (app : SparkApplication) (o : patchOperation)
    (h : addSecurityContext pod app = some o) : o.value.kind = PatchKind.security := by
  simp only [addSecurityContext, Option.map_eq_some'] at h
  obtain ⟨s, _, rfl⟩ := h
  rfl

/-- Kinds emitted by the middle patchers (never owner, affinity, or
security context). -/
def middleKind (k : PatchKind) : Prop :=
  k = PatchKind.volume ∨ k = PatchKind.mount ∨ k = PatchKind.env
    ∨ k = PatchKind.toleration

theorem middleKind_ne {k : PatchKind} (h : middleKind k) :
    k ≠ PatchKind.owner ∧ k ≠ PatchKind.affinity ∧ k ≠ PatchKind.security := by
  rcases h with h | h | h | h <;> subst h <;> exact ⟨by decide, by decide, by decide⟩

theorem middle_addVolumesAux (pod : Pod) (vols : List Volume)
    (ms : List VolumeMount) (ops : List patchOperation)
    (h : addVolumesAux pod vols ms = some ops) :
    ∀ op ∈ ops, middleKind op.value.kind := by
  induction ms generalizing ops with
  | nil =>
    simp only [addVolumesAux, Option.some.injEq] at h
    subst h; simp
  | cons m rest ih =>
    simp only [addVolumesAux] at h
    split at h
    · exact ih ops h
    · simp only [Option.bind_eq_some, Option.map_eq_some'] at h
      obtain ⟨mountOp, hm, restOps, hrest, rfl⟩ := h
      intro op hop
      rcases List.mem_cons.mp hop with rfl | hop
      · exact Or.inl (kind_addVolume pod _)
      · rcases List.mem_cons.mp hop with rfl | hop
        · exact Or.inr (Or.inl (kind_addVolumeMount pod m op hm))
        · exact ih restOps hrest op hop

theorem middle_addVolumes (pod : Pod) (app : SparkApplication)
    (ops : List patchOperation) (h : addVolumes pod app = some ops) :
    ∀ op ∈ ops, middleKind op.value.kind :=
  middle_addVolumesAux pod app.spec.volumes (roleVolumeMounts pod app) ops h

theorem middle_addGeneralConfigMapsAux (pod : Pod) (nps : List NamePath)
    (ops : List patchOperation) (h : addGeneralConfigMapsAux pod nps = some ops) :
    ∀ op ∈ ops, middleKind op.value.kind := by
  induction nps generalizing ops with
  | nil =>
    simp only [addGeneralConfigMapsAux, Option.some.injEq] at h
    subst h; simp
  | cons np rest ih =>
    simp only [addGeneralConfigMapsAux, Option.bind_eq_some, Option.map_eq_some'] at h
    obtain ⟨mountOp, hm, restOps, hrest, rfl⟩ := h
    intro op hop
    rcases List.mem_cons.mp hop with rfl | hop
    · exact Or.inl (kind_addConfigMapVolume pod _ _)
    · rcases List.mem_cons.mp hop with rfl | hop
      · exact Or.inr (Or.inl (kind_addConfigMapVolumeMount pod _ _ op hm))
      · exact ih restOps hrest op hop

theorem middle_addGeneralConfigMaps (pod : Pod) (app : SparkApplication)
    (ops : List patchOperation) (h : addGeneralConfigMaps pod app = some ops) :
    ∀ op ∈ ops, middleKind op.value.kind :=
  middle_addGeneralConfigMapsAux pod (roleConfigMaps pod app) ops h

theorem middle_addSparkConfigMap (pod : Pod) (app : SparkApplication)
    (ops : List patchOperation) (h : addSparkConfigMap pod app = some ops) :
    ∀ op ∈ ops, middleKind op.value.kind := by
  unfold addSparkConfigMap at h
  split at h
  · simp only [Option.some.injEq] at h; subst h; simp
  · simp only [Option.bind_eq_some, Option.map_eq_some'] at h
    obtain ⟨mountOp, hm, envOp, he, rfl⟩ := h
    intro op hop
    rcases List.mem_cons.mp hop with rfl | hop
    · exact Or.inl (kind_addConfigMapVolume pod _ _)
    · rcases List.mem_cons.mp hop with rfl | hop
      · exact Or.inr (Or.inl (kind_addConfigMapVolumeMount pod _ _ op hm))
      · rcases List.mem_cons.mp hop with rfl | hop
        · exact Or.inr (Or.inr (Or.inl (kind_addEnvironmentVariable pod _ _ op he)))
        · simp at hop

theorem middle_addHadoopConfigMap (pod : Pod) (app : SparkApplication)
    (ops : List patchOperation) (h : addHadoopConfigMap pod app = some ops) :
    ∀ op ∈ ops, middleKind op.value.kind := by
  unfold addHadoopConfigMap at h
  split at h
  · simp only [Option.some.injEq] at h; subst h; simp
  · simp only [Option.bind_eq_some, Option.map_eq_some'] at h
    obtain ⟨mountOp, hm, envOp, he, rfl⟩ := h
    intro op hop
    rcases List.mem_cons.mp hop with rfl | hop
    · exact Or.inl (kind_addConfigMapVolume pod _ _)
    · rcases List.mem_cons.mp hop with rfl | hop
      · exact Or.inr (Or.inl (kind_addConfigMapVolumeMount pod _ _ op hm))
      · rcases List.mem_cons.mp hop with rfl | hop
        · exact Or.inr (Or.inr (Or.inl (kind_addEnvironmentVariable pod _ _ op he)))
        · simp at hop

theorem middle_addTolerations (pod : Pod) (app : SparkApplication) :
    ∀ op ∈ addTolerations pod app, middleKind op.value.kind := by
  intro op hop
  simp only [addTolerations, List.mem_map] at hop
  obtain ⟨t, _, rfl⟩ := hop
  exact Or.inr (Or.inr (Or.inr (kind_addToleration pod t)))

/-- Membership in a conditionally-included `Option.toList` yields both the
condition and the option value. -/
theorem mem_ite_toList {p : Prop} [Decidable p] {o : Option patchOperation}
    {op : patchOperation} (h : op ∈ (if p then o.toList else [])) :
    p ∧ o = some op := by
  split at h
  case isTrue hp =>
    cases o with
    | none => simp at h
    | some a =>
      simp only [Option.toList, List.mem_singleton] at h
      subst h; exact ⟨hp, rfl⟩
  case isFalse hp => simp at h

/-- Destructuring of a successful `patchSparkPod` run into its components
in assembly order. -/
theorem patchSparkPod_parts (pod : Pod) (app : SparkApplication)
    (ops : List patchOperation) (h : patchSparkPod pod app = some ops) :
    ∃ volOps genOps sparkOps hadoopOps,
      addVolumes pod app = some volOps
      ∧ addGeneralConfigMaps pod app = some genOps
      ∧ addSparkConfigMap pod app = some sparkOps
      ∧ addHadoopConfigMap pod app = some hadoopOps
      ∧ ops = (if IsDriverPod pod then [addOwnerReference pod app] else [])
          ++ volOps ++ genOps ++ sparkOps ++ hadoopOps
          ++ addTolerations pod app
          ++ (if pod.spec.affinity.isNone then (addAffinity pod app).toList else [])
          ++ (if pod.spec.securityContext.isNone then
               (addSecurityContext pod app).toList
             else []) := by
  simp only [patchSparkPod, Option.bind_eq_some, Option.map_eq_some'] at h
  obtain ⟨volOps, h1, genOps, h2, sparkOps, h3, hadoopOps, h4, rfl⟩ := h
  exact ⟨volOps, genOps, sparkOps, hadoopOps, h1, h2, h3, h4, rfl⟩

end SparkWebhook

namespace SparkWebhook

/-- Claim C8: the output sequence is the concatenation, in this fixed
order, of ownership (driver only), volume/mount pairs, general config
references, application-config reference, secondary-system-config
reference, tolerations, conditional affinity, conditional security
context. -/
theorem claim_C8_fixed_order (pod : Pod) (app : SparkApplication)
    (volOps genOps sparkOps hadoopOps : List patchOperation)
    (h1 : addVolumes pod app = some volOps)
    (h2 : addGeneralConfigMaps pod app = some genOps)
    (h3 : addSparkConfigMap pod app = some sparkOps)
    (h4 : addHadoopConfigMap pod app = some hadoopOps) :
    patchSparkPod pod app =
      some ((if IsDriverPod pod then [addOwnerReference pod app] else [])
        ++ volOps ++ genOps ++ sparkOps ++ hadoopOps
        ++ addTolerations pod app
        ++ (if pod.spec.affinity.isNone then (addAffinity pod app).toList else [])
        ++ (if pod.spec.securityContext.isNone then
             (addSecurityContext pod app).toList
           else [])) := by
  simp [patchSparkPod, h1, h2, h3, h4]

theorem claim_C8_fixed_order_witness :
    addVolumes wPod wApp = some []
    ∧ addGeneralConfigMaps wPod wApp = some []
    ∧ addSparkConfigMap wPod wApp = some []
    ∧ addHadoopConfigMap wPod wApp = some []
    ∧ patchSparkPod wPod wApp =
      some ((if IsDriverPod wPod then [addOwnerReference wPod wApp] else [])
        ++ [] ++ [] ++ [] ++ []
        ++ addTolerations wPod wApp
        ++ (if wPod.spec.affinity.isNone then (addAffinity wPod wApp).toList else [])
        ++ (if wPod.spec.securityContext.isNone then
             (addSecurityContext wPod wApp).toList
           else [])) :=
  ⟨rfl, rfl, rfl, rfl, claim_C8_fixed_order wPod wApp [] [] [] [] rfl rfl rfl rfl⟩

/-- Claim C3: a successful derivation carries an owner-reference operation
iff the pod is classified as the driver; executor (and unclassified) pods
never receive one. -/
theorem claim_C3_owner_iff_driver (pod : Pod) (app : SparkApplication)
    (ops : List patchOperation) (h : patchSparkPod pod app = some ops) :
    (∃ op ∈ ops, op.value.kind = PatchKind.owner) ↔ IsDriverPod pod = true := by
  obtain ⟨volOps, genOps, sparkOps, hadoopOps, h1, h2, h3, h4, rfl⟩ :=
    patchSparkPod_parts pod app ops h
  constructor
  · rintro ⟨op, hop, hk⟩
    simp only [List.mem_append] at hop
    rcases hop with ((((((hop | hop) | hop) | hop) | hop) | hop) | hop) | hop
    · by_cases hd : IsDriverPod pod = true
      · exact hd
      · simp [hd] at hop
    · exact absurd hk (middleKind_ne (middle_addVolumes pod app volOps h1 op hop)).1
    · exact absurd hk
        (middleKind_ne (middle_addGeneralConfigMaps pod app genOps h2 op hop)).1
    · exact absurd hk
        (middleKind_ne (middle_addSparkConfigMap pod app sparkOps h3 op hop)).1
    · exact absurd hk
        (middleKind_ne (middle_addHadoopConfigMap pod app hadoopOps h4 op hop)).1
    · exact absurd hk (middleKind_ne (middle_addTolerations pod app op hop)).1
    · obtain ⟨_, ha⟩ := mem_ite_toList hop
      rw [kind_addAffinity pod app op ha] at hk
      exact PatchKind.noConfusion hk
    · obtain ⟨_, hs⟩ := mem_ite_toList hop
      rw [kind_addSecurityContext pod app op hs] at hk
      exact PatchKind.noConfusion hk
  · intro hd
    refine ⟨addOwnerReference pod app, ?_, kind_addOwnerReference pod app⟩
    simp [hd]

/-- The single owner-reference operation emitted for `wPod`. -/
def dOps : List patchOperation :=
  [{ op := "add", path := "/metadata/ownerReferences",
     value := .ownerRefList [{ payload := "" }] }]

theorem claim_C3_owner_iff_driver_witness :
    patchSparkPod wPod wApp = some dOps
    ∧ ((∃ op ∈ dOps, op.value.kind = PatchKind.owner) ↔ IsDriverPod wPod = true) :=
  ⟨rfl, claim_C3_owner_iff_driver wPod wApp dOps rfl⟩

end SparkWebhook

namespace SparkWebhook

/-- Claim C4 counterexample: a pod whose affinity field is absent, against
a descriptor declaring no affinity, yields an output with no affinity
operation — refuting "an affinity add operation is present if and only if
the pod's affinity field was absent beforehand" in the absent direction. -/
theorem claim_C4_counterexample :
    patchSparkPod {} wApp = some []
    ∧ ({} : Pod).spec.affinity = none
    ∧ ¬ ((∃ op ∈ ([] : List patchOperation), op.value.kind = PatchKind.affinity) ↔
        ({} : Pod).spec.affinity = none) := by
  refine ⟨rfl, rfl, ?_⟩
  intro hiff
  have hex := hiff.mpr rfl
  simp at hex

/-- Claim C4 as amended: an affinity (resp. security-context) operation is
present iff the pod's corresponding field was absent beforehand AND the
role-selected descriptor declares the attribute (the patcher returns an
operation); when the field is already set, zero operations are emitted
regardless of descriptor content. -/
theorem claim_C4_amended (pod : Pod) (app : SparkApplication)
    (ops : List patchOperation) (h : patchSparkPod pod app = some ops) :
    ((∃ op ∈ ops, op.value.kind = PatchKind.affinity) ↔
      (pod.spec.affinity = none ∧ (addAffinity pod app).isSome = true))
    ∧ ((∃ op ∈ ops, op.value.kind = PatchKind.security) ↔
      (pod.spec.securityContext = none ∧ (addSecurityContext pod app).isSome = true)) := by
  obtain ⟨volOps, genOps, sparkOps, hadoopOps, h1, h2, h3, h4, rfl⟩ :=
    patchSparkPod_parts pod app ops h
  constructor
  · constructor
    · rintro ⟨op, hop, hk⟩
      simp only [List.mem_append] at hop
      rcases hop with ((((((hop | hop) | hop) | hop) | hop) | hop) | hop) | hop
      · by_cases hd : IsDriverPod pod = true
        · rw [if_pos hd] at hop
          simp only [List.mem_singleton] at hop
          subst hop
          rw [kind_addOwnerReference pod app] at hk
          exact PatchKind.noConfusion hk
        · simp [hd] at hop
      · exact absurd hk
          (middleKind_ne (middle_addVolumes pod app volOps h1 op hop)).2.1
      · exact absurd hk
          (middleKind_ne (middle_addGeneralConfigMaps pod app genOps h2 op hop)).2.1
      · exact absurd hk
          (middleKind_ne (middle_addSparkConfigMap pod app sparkOps h3 op hop)).2.1
      · exact absurd hk
          (middleKind_ne (middle_addHadoopConfigMap pod app hadoopOps h4 op hop)).2.1
      · exact absurd hk (middleKind_ne (middle_addTolerations pod app op hop)).2.1
      · obtain ⟨hcond, ha⟩ := mem_ite_toList hop
        exact ⟨Option.isNone_iff_eq_none.mp hcond, by rw [ha]; rfl⟩
      · obtain ⟨_, hs⟩ := mem_ite_toList hop
        rw [kind_addSecurityContext pod app op hs] at hk
        exact PatchKind.noConfusion hk
    · rintro ⟨hnone, hsome⟩
      obtain ⟨o, ho⟩ := Option.isSome_iff_exists.mp hsome
      refine ⟨o, ?_, kind_addAffinity pod app o ho⟩
      have hcond : pod.spec.affinity.isNone = true := by simp [hnone]
      simp [hcond, ho]
  · constructor
    · rintro ⟨op, hop, hk⟩
      simp only [List.mem_append] at hop
      rcases hop with ((((((hop | hop) | hop) | hop) | hop) | hop) | hop) | hop
      · by_cases hd : IsDriverPod pod = true
        · rw [if_pos hd] at hop
          simp only [List.mem_singleton] at hop
          subst hop
          rw [kind_addOwnerReference pod app] at hk
          exact PatchKind.noConfusion hk
        · simp [hd] at hop
      · exact absurd hk
          (middleKind_ne (middle_addVolumes pod app volOps h1 op hop)).2.2
      · exact absurd hk
          (middleKind_ne (middle_addGeneralConfigMaps pod app genOps h2 op hop)).2.2
      · exact absurd hk
          (middleKind_ne (middle_addSparkConfigMap pod app sparkOps h3 op hop)).2.2
      · exact absurd hk
          (middleKind_ne (middle_addHadoopConfigMap pod app hadoopOps h4 op hop)).2.2
      · exact absurd hk (middleKind_ne (middle_addTolerations pod app op hop)).2.2
      · obtain ⟨_, ha⟩ := mem_ite_toList hop
        rw [kind_addAffinity pod app op ha] at hk
        exact PatchKind.noConfusion hk
      · obtain ⟨hcond, hs⟩ := mem_ite_toList hop
        exact ⟨Option.isNone_iff_eq_none.mp hcond, by rw [hs]; rfl⟩
    · rintro ⟨hnone, hsome⟩
      obtain ⟨o, ho⟩ := Option.isSome_iff_exists.mp hsome
      refine ⟨o, ?_, kind_addSecurityContext pod app o ho⟩
      have hcond : pod.spec.securityContext.isNone = true := by simp [hnone]
      simp [hcond, ho]

/-- An executor pod carrying only the well-known executor container. -/
def ePod : Pod :=
  { spec := { containers := [{ name := "executor" }] },
    sparkRole := SparkRole.executor }

/-- The operations derived for `ePod` against `oApp`. -/
def eOps : List patchOperation :=
  [{ op := "add", path := "/spec/volumes", value := .volumeList [{ name := "v" }] },
   { op := "add", path := "/spec/containers/0/volumeMounts",
     value := .volumeMountList [{ name := "v" }] },
   { op := "add", path := "/spec/volumes",
     value := .volumeList
       [{ name := "c-vol", volumeSource := { configMap := some { name := "c" } } }] },
   { op := "add", path := "/spec/containers/0/volumeMounts",
     value := .volumeMountList
       [{ name := "c-vol", readOnly := true, mountPath := "/c" }] },
   { op := "add", path := "/spec/tolerations",
     value := .tolerationList [{ payload := "t" }] },
   { op := "add", path := "/spec/affinity", value := .affinityElem { payload := "a" } },
   { op := "add", path := "/spec/securityContext",
     value := .securityContextElem { payload := "s" } }]

theorem claim_C4_amended_witness :
    patchSparkPod ePod oApp = some eOps
    ∧ (((∃ op ∈ eOps, op.value.kind = PatchKind.affinity) ↔
        (ePod.spec.affinity = none ∧ (addAffinity ePod oApp).isSome = true))
      ∧ ((∃ op ∈ eOps, op.value.kind = PatchKind.security) ↔
        (ePod.spec.securityContext = none
          ∧ (addSecurityContext ePod oApp).isSome = true))) :=
  ⟨rfl, claim_C4_amended ePod oApp eOps rfl⟩

/-- Claim C9: patch derivation only reads the pod: in the state-passing
translation the post-call pod document agrees with the input pod on every
field, and the derived operations are those of `patchSparkPod`. -/
theorem claim_C9_pod_unchanged (pod : Pod) (app : SparkApplication) :
    (patchSparkPodSt pod app).2.ownerReferences = pod.ownerReferences
    ∧ (patchSparkPodSt pod app).2.spec.volumes = pod.spec.volumes
    ∧ (patchSparkPodSt pod app).2.spec.containers = pod.spec.containers
    ∧ (patchSparkPodSt pod app).2.spec.tolerations = pod.spec.tolerations
    ∧ (patchSparkPodSt pod app).2.spec.affinity = pod.spec.affinity
    ∧ (patchSparkPodSt pod app).2.spec.securityContext = pod.spec.securityContext
    ∧ (patchSparkPodSt pod app).1 = patchSparkPod pod app :=
  ⟨rfl, rfl, rfl, rfl, rfl, rfl, rfl⟩

end SparkWebhook
